import Mathlib

/-!
Verification of the empRole workforce-management backend.

The definitions below are a shallow embedding of the repository's core
logic, translated from the JavaScript source:

* src/backend/models/DailyTimesheet.js  (parseTime, calculateHours, the
  pre-save hook recomputing derived hours)
* src/backend/routes/timesheets.js      (create / get / update handlers)
* src/backend/models/DailyExpense.js and src/backend/routes/expenses.js
  (expense lifecycle: update / approve / reject handlers)
* src/backend/routes/reports.js and the MonthlySummary model
  (calculateMonthlySummary, calculatePayableAmount, batch generation,
  finalize)

Conventions of the embedding: Mongo ObjectIds are Nat, dates are Int
(milliseconds since epoch, only compared), JS numbers are Rat (for hours,
rates and amounts) or Int (for whole minutes), and a JS NaN-producing
parse is Option.none.  A route handler is a pure function from the
relevant collection state and request data to Except: an error result
models an early HTTP error response (status code and message as in the
source) and implies no write occurred, since every handler in the source
performs its checks before any mutation.  Mongoose document middleware
semantics are preserved: Model.prototype.save triggers the pre-save hook
of DailyTimesheet, while Model.findByIdAndUpdate does not.
-/

namespace EmpRole

/-! ### Time calculator (src/backend/models/DailyTimesheet.js, lines 96-122) -/

/-- JavaScript String.prototype.split with a one-character separator,
modelled on the character list of the string. -/
def splitOnChar (sep : Char) : List Char → List (List Char)
  | [] => [[]]
  | c :: cs =>
    let r := splitOnChar sep cs
    if c = sep then [] :: r
    else
      match r with
      | g :: gs => (c :: g) :: gs
      | [] => [[c]]

/-- Value of a decimal digit character, none for a non-digit. -/
def digitVal (c : Char) : Option Nat :=
  if '0' ≤ c ∧ c ≤ '9' then some (c.toNat - '0'.toNat) else none

/-- JavaScript Number(s) restricted to unsigned decimal strings: a string
of digits evaluates to its decimal value (the empty string to 0, as in
JS), and any string containing a non-digit to none, modelling NaN. -/
def jsNumber (cs : List Char) : Option Nat :=
  cs.foldl
    (fun acc c =>
      match acc, digitVal c with
      | some n, some d => some (n * 10 + d)
      | _, _ => none)
    (some 0)

/-- DailyTimesheet.methods.parseTime: split the string on a colon, take
the first two parts as hours and minutes, and return minutes since
midnight; none models the NaN produced for malformed input. -/
def parseTime (timeString : String) : Option Int :=
  match (splitOnChar ':' timeString.data).map jsNumber with
  | some hours :: some minutes :: _ => some ((hours : Int) * 60 + minutes)
  | _ => none

/-- Result of DailyTimesheet.methods.calculateHours: the two derived
fields written onto the document. -/
structure HoursResult where
  totalHoursWorked : ℚ
  otHours : ℚ
deriving DecidableEq

/-- DailyTimesheet.methods.calculateHours: minutes difference of end and
start, plus 24*60 for an overnight shift, minus breakTime, clamped at 0
after converting to hours; overtime is the excess over the fixed
regularHours = 8 threshold.  none models the NaN results on unparsable
times. -/
def calculateHours (startTime endTime : String) (breakTime : Int) : Option HoursResult :=
  match parseTime startTime, parseTime endTime with
  | some s, some e =>
    let totalMinutes : Int := e - s
    let wrappedMinutes : Int := if totalMinutes < 0 then totalMinutes + 24 * 60 else totalMinutes
    let netMinutes : Int := wrappedMinutes - breakTime
    let totalHoursWorked : ℚ := max 0 ((netMinutes : ℚ) / 60)
    let regularHours : ℚ := 8
    let otHours : ℚ := max 0 (totalHoursWorked - regularHours)
    some ⟨totalHoursWorked, otHours⟩
  | _, _ => none

/-! ### Data model (models/Employee.js, models/DailyTimesheet.js, models/DailyExpense.js) -/

/-- User roles, from the User model enum and middleware/roleCheck.js. -/
inductive Role
  | admin
  | manager
  | employee
deriving DecidableEq

/-- The authenticated principal attached to req.user by the auth
middleware: user id, role, and the linked Employee id (meaningful for
the employee role). -/
structure Principal where
  id : Nat
  role : Role
  linkedEmployeeId : Nat
deriving DecidableEq

/-- Employee.status enum. -/
inductive EmpStatus
  | active
  | inactive
  | terminated
deriving DecidableEq

/-- Employee document (models/Employee.js); fields not consulted by the
claimed logic (dateOfEmployment, breakTimeConfig, personalInfo,
passwordResetInfo) are elided. -/
structure Employee where
  id : Nat
  employeeId : String
  name : String
  position : String
  payRate : ℚ
  otRate : ℚ
  vacationPayRate : ℚ
  status : EmpStatus
deriving DecidableEq

/-- DailyTimesheet.status enum. -/
inductive TsStatus
  | draft
  | submitted
  | approved
  | rejected
deriving DecidableEq

/-- DailyTimesheet document (models/DailyTimesheet.js). -/
structure TimesheetDoc where
  id : Nat
  date : Int
  employeeId : Nat
  startTime : String
  endTime : String
  breakTime : Int
  totalHoursWorked : ℚ
  otHours : ℚ
  isVacationWork : Bool
  isHolidayWork : Bool
  notes : String
  createdBy : Nat
  lastModifiedBy : Option Nat
  status : TsStatus
deriving DecidableEq

/-- DailyExpense.status enum. -/
inductive ExpStatus
  | draft
  | submitted
  | approved
  | rejected
  | reimbursed
deriving DecidableEq

/-- DailyExpense document (models/DailyExpense.js). -/
structure ExpenseDoc where
  id : Nat
  date : Int
  employeeId : Nat
  category : String
  description : String
  amount : ℚ
  currency : String
  receipt : Option String
  notes : Option String
  createdBy : Nat
  lastModifiedBy : Option Nat
  status : ExpStatus
  approvedBy : Option Nat
  approvedAt : Option Int
  rejectionReason : String
deriving DecidableEq

/-- An early-return HTTP error response: status code and message as
written in the route source. -/
structure ErrResponse where
  code : Nat
  message : String
deriving DecidableEq

/-- The HH:MM format regular expression used by the routes and the
model validators, written out on the character list of the string:
one-or-two-digit hour 0-23 (two-digit form starting 0, 1 or 2) and a
two-digit minute 00-59. -/
def validTimeFormat (s : String) : Bool :=
  match s.data with
  | [h1, c, m1, m2] =>
      c = ':' ∧ ('0' ≤ h1 ∧ h1 ≤ '9') ∧ ('0' ≤ m1 ∧ m1 ≤ '5') ∧ ('0' ≤ m2 ∧ m2 ≤ '9')
  | [h1, h2, c, m1, m2] =>
      c = ':' ∧
      ((h1 = '0' ∨ h1 = '1') ∧ ('0' ≤ h2 ∧ h2 ≤ '9') ∨ h1 = '2' ∧ ('0' ≤ h2 ∧ h2 ≤ '3')) ∧
      ('0' ≤ m1 ∧ m1 ≤ '5') ∧ ('0' ≤ m2 ∧ m2 ≤ '9')
  | _ => false

/-- Mongoose schema validators of DailyTimesheet that bear on numbers:
breakTime in 0-480, totalHoursWorked in 0-24, otHours at least 0.
Checked on save and, with runValidators, on findByIdAndUpdate. -/
abbrev tsDocValid (t : TimesheetDoc) : Prop :=
  0 ≤ t.breakTime ∧ t.breakTime ≤ 480 ∧
  0 ≤ t.totalHoursWorked ∧ t.totalHoursWorked ≤ 24 ∧ 0 ≤ t.otHours

/-- DailyExpense category enum. -/
def expenseCategories : List String :=
  ["transport", "meals", "accommodation", "supplies", "other"]

/-- DailyExpense currency enum. -/
def expenseCurrencies : List String := ["LKR", "USD", "EUR"]

/-- Mongoose schema validators of DailyExpense: category and currency in
their enums, amount at least 0. -/
abbrev expDocValid (e : ExpenseDoc) : Prop :=
  e.category ∈ expenseCategories ∧ e.currency ∈ expenseCurrencies ∧ 0 ≤ e.amount

/-! ### Timesheet routes (src/backend/routes/timesheets.js)

The express-validator chains reject malformed time strings before the
handler body runs; other format checks (ISO dates, notes length) are
boundary validation outside the claimed logic and are elided.  The
collection is a list of documents; ids are assumed unique by the store. -/

/-- Replace the document with the id of the updated document. -/
def replaceTs (store : List TimesheetDoc) (t' : TimesheetDoc) : List TimesheetDoc :=
  store.map fun d => if d.id = t'.id then t' else d

/-- Body of POST /api/timesheets.  The route destructures exactly the
listed fields; a client may also send totalHoursWorked and otHours but
the handler never reads them, which the two trailing fields record. -/
structure TimesheetCreateBody where
  date : Int
  employeeId : Nat
  startTime : String
  endTime : String
  breakTime : Int
  isVacationWork : Bool
  isHolidayWork : Bool
  notes : String
  totalHoursWorked : Option ℚ
  otHours : Option ℚ
deriving DecidableEq

/-- POST /api/timesheets: validate formats, check the employee exists,
let an employee create only for themselves, reject a duplicate
(employeeId, date) pair, then construct the document and save it; the
pre-save hook runs calculateHours on the new document, so the stored
derived hours come from the calculator, never from the body. -/
def createTimesheet (employees : List Employee) (store : List TimesheetDoc)
    (user : Principal) (b : TimesheetCreateBody) (newId : Nat) :
    Except ErrResponse (TimesheetDoc × List TimesheetDoc) :=
  if ¬ (validTimeFormat b.startTime ∧ validTimeFormat b.endTime) then
    .error ⟨400, "Start time must be in HH:MM format"⟩
  else
    match employees.find? (fun emp => emp.id = b.employeeId) with
    | none => .error ⟨404, "Employee not found"⟩
    | some _ =>
      if user.role = .employee ∧ b.employeeId ≠ user.linkedEmployeeId then
        .error ⟨403, "You can only create timesheets for yourself"⟩
      else if store.any (fun t => t.employeeId = b.employeeId ∧ t.date = b.date) then
        .error ⟨400, "Timesheet already exists for this date and employee"⟩
      else
        match calculateHours b.startTime b.endTime b.breakTime with
        | none => .error ⟨500, "Server error"⟩
        | some r =>
          let t : TimesheetDoc :=
            { id := newId, date := b.date, employeeId := b.employeeId,
              startTime := b.startTime, endTime := b.endTime, breakTime := b.breakTime,
              totalHoursWorked := r.totalHoursWorked, otHours := r.otHours,
              isVacationWork := b.isVacationWork, isHolidayWork := b.isHolidayWork,
              notes := b.notes, createdBy := user.id, lastModifiedBy := none,
              status := .draft }
          if tsDocValid t then .ok (t, store ++ [t]) else .error ⟨500, "Server error"⟩

/-- GET /api/timesheets/:id: look the document up first (404 when the id
does not resolve), then deny an employee whose linked employee id
differs from the document's. -/
def getTimesheet (store : List TimesheetDoc) (user : Principal) (tsId : Nat) :
    Except ErrResponse TimesheetDoc :=
  match store.find? (fun t => t.id = tsId) with
  | none => .error ⟨404, "Timesheet not found"⟩
  | some t =>
    if user.role = .employee ∧ t.employeeId ≠ user.linkedEmployeeId then
      .error ⟨403, "Access denied"⟩
    else .ok t

/-- Body of PUT /api/timesheets/:id.  The handler spreads req.body into
findByIdAndUpdate, so every schema path a client includes is applied,
including date, employeeId, status and the derived totalHoursWorked and
otHours; none marks an absent field. -/
structure TimesheetUpdateBody where
  date : Option Int
  employeeId : Option Nat
  startTime : Option String
  endTime : Option String
  breakTime : Option Int
  totalHoursWorked : Option ℚ
  otHours : Option ℚ
  isVacationWork : Option Bool
  isHolidayWork : Option Bool
  notes : Option String
  status : Option TsStatus
deriving DecidableEq

/-- The effect of DailyTimesheet.findByIdAndUpdate({...req.body,
lastModifiedBy: req.user.id}) on the found document: each present body
field overwrites the stored one, lastModifiedBy is always set, and no
pre-save hook runs, so totalHoursWorked and otHours are not recomputed. -/
def applyTsUpdate (t : TimesheetDoc) (b : TimesheetUpdateBody) (userId : Nat) : TimesheetDoc :=
  { t with
    date := b.date.getD t.date,
    employeeId := b.employeeId.getD t.employeeId,
    startTime := b.startTime.getD t.startTime,
    endTime := b.endTime.getD t.endTime,
    breakTime := b.breakTime.getD t.breakTime,
    totalHoursWorked := b.totalHoursWorked.getD t.totalHoursWorked,
    otHours := b.otHours.getD t.otHours,
    isVacationWork := b.isVacationWork.getD t.isVacationWork,
    isHolidayWork := b.isHolidayWork.getD t.isHolidayWork,
    notes := b.notes.getD t.notes,
    status := b.status.getD t.status,
    lastModifiedBy := some userId }

/-- Format validation of an optional body field. -/
def optValidTime (s : Option String) : Bool :=
  match s with
  | none => true
  | some v => validTimeFormat v

/-- PUT /api/timesheets/:id: validate optional time formats, find the
document (404 first), deny an employee who does not own it, then apply
findByIdAndUpdate with runValidators; there is no status check for the
owning employee, and the update does not recompute derived hours. -/
def updateTimesheet (store : List TimesheetDoc) (user : Principal) (tsId : Nat)
    (b : TimesheetUpdateBody) : Except ErrResponse (TimesheetDoc × List TimesheetDoc) :=
  if ¬ (optValidTime b.startTime ∧ optValidTime b.endTime) then
    .error ⟨400, "Start time must be in HH:MM format"⟩
  else
    match store.find? (fun t => t.id = tsId) with
    | none => .error ⟨404, "Timesheet not found"⟩
    | some t =>
      if user.role = .employee ∧ t.employeeId ≠ user.linkedEmployeeId then
        .error ⟨403, "You can only update your own timesheets"⟩
      else
        let t' := applyTsUpdate t b user.id
        if tsDocValid t' then .ok (t', replaceTs store t')
        else .error ⟨500, "Server error"⟩

/-! ### Expense routes (src/backend/routes/expenses.js) -/

/-- Replace the expense with the id of the updated document. -/
def replaceExp (store : List ExpenseDoc) (e' : ExpenseDoc) : List ExpenseDoc :=
  store.map fun d => if d.id = e'.id then e' else d

/-- GET /api/expenses/:id: lookup first (404), then the ownership check
for the employee role (403). -/
def getExpense (store : List ExpenseDoc) (user : Principal) (expId : Nat) :
    Except ErrResponse ExpenseDoc :=
  match store.find? (fun e => e.id = expId) with
  | none => .error ⟨404, "Expense not found"⟩
  | some e =>
    if user.role = .employee ∧ e.employeeId ≠ user.linkedEmployeeId then
      .error ⟨403, "Access denied"⟩
    else .ok e

/-- Body of PUT /api/expenses/:id: as with timesheets, req.body is
spread into findByIdAndUpdate, so every schema path a client includes is
applied, including status, approvedBy and approvedAt. -/
structure ExpenseUpdateBody where
  date : Option Int
  employeeId : Option Nat
  category : Option String
  description : Option String
  amount : Option ℚ
  currency : Option String
  receipt : Option (Option String)
  notes : Option (Option String)
  status : Option ExpStatus
  approvedBy : Option (Option Nat)
  approvedAt : Option (Option Int)
  rejectionReason : Option String
deriving DecidableEq

/-- The effect of DailyExpense.findByIdAndUpdate({...req.body,
lastModifiedBy: req.user.id}) on the found document. -/
def applyExpUpdate (e : ExpenseDoc) (b : ExpenseUpdateBody) (userId : Nat) : ExpenseDoc :=
  { e with
    date := b.date.getD e.date,
    employeeId := b.employeeId.getD e.employeeId,
    category := b.category.getD e.category,
    description := b.description.getD e.description,
    amount := b.amount.getD e.amount,
    currency := b.currency.getD e.currency,
    receipt := b.receipt.getD e.receipt,
    notes := b.notes.getD e.notes,
    status := b.status.getD e.status,
    approvedBy := b.approvedBy.getD e.approvedBy,
    approvedAt := b.approvedAt.getD e.approvedAt,
    rejectionReason := b.rejectionReason.getD e.rejectionReason,
    lastModifiedBy := some userId }

/-- PUT /api/expenses/:id: find the document (404 first), deny an
employee who does not own it, deny an employee when the status is
neither draft nor rejected, then apply findByIdAndUpdate with
runValidators.  Admin and manager skip both employee checks. -/
def updateExpense (store : List ExpenseDoc) (user : Principal) (expId : Nat)
    (b : ExpenseUpdateBody) : Except ErrResponse (ExpenseDoc × List ExpenseDoc) :=
  match store.find? (fun e => e.id = expId) with
  | none => .error ⟨404, "Expense not found"⟩
  | some e =>
    if user.role = .employee ∧ e.employeeId ≠ user.linkedEmployeeId then
      .error ⟨403, "You can only update your own expenses"⟩
    else if user.role = .employee ∧ ¬ (e.status = .draft ∨ e.status = .rejected) then
      .error ⟨403, "You can only update expenses that are in draft or rejected status"⟩
    else
      let e' := applyExpUpdate e b user.id
      if expDocValid e' then .ok (e', replaceExp store e')
      else .error ⟨500, "Server error"⟩

/-- PUT /api/expenses/:id/approve: adminOrManager middleware, lookup,
the submitted-or-rejected guard, then set status, approvedBy,
approvedAt and lastModifiedBy and save. -/
def approveExpense (store : List ExpenseDoc) (user : Principal) (expId : Nat)
    (now : Int) : Except ErrResponse (ExpenseDoc × List ExpenseDoc) :=
  if ¬ (user.role = .admin ∨ user.role = .manager) then
    .error ⟨403, "Access denied. Insufficient permissions."⟩
  else
    match store.find? (fun e => e.id = expId) with
    | none => .error ⟨404, "Expense not found"⟩
    | some e =>
      if ¬ (e.status = .submitted ∨ e.status = .rejected) then
        .error ⟨400, "Only submitted or rejected expenses can be approved"⟩
      else
        let e' := { e with
          status := ExpStatus.approved,
          approvedBy := some user.id,
          approvedAt := some now,
          lastModifiedBy := some user.id }
        .ok (e', replaceExp store e')

/-- PUT /api/expenses/:id/reject: adminOrManager middleware, lookup, the
submitted-or-approved guard, then set status rejected, the rejection
reason (empty when absent) and lastModifiedBy and save. -/
def rejectExpense (store : List ExpenseDoc) (user : Principal) (expId : Nat)
    (reason : Option String) : Except ErrResponse (ExpenseDoc × List ExpenseDoc) :=
  if ¬ (user.role = .admin ∨ user.role = .manager) then
    .error ⟨403, "Access denied. Insufficient permissions."⟩
  else
    match store.find? (fun e => e.id = expId) with
    | none => .error ⟨404, "Expense not found"⟩
    | some e =>
      if ¬ (e.status = .submitted ∨ e.status = .approved) then
        .error ⟨400, "Only submitted or approved expenses can be rejected"⟩
      else
        let e' := { e with
          status := ExpStatus.rejected,
          rejectionReason := reason.getD "",
          lastModifiedBy := some user.id }
        .ok (e', replaceExp store e')

/-! ### Monthly summaries (MonthlySummary model and src/backend/routes/reports.js)

The JS Date month boundaries (first day of month, last day at 23:59:59)
are treated as abstract Int parameters monthStart and monthEnd supplied
by the date library, and documents are keyed by (employeeId, year,
month) as in the unique compound index of the schema. -/

/-- MonthlySummary.status enum. -/
inductive SumStatus
  | draft
  | finalized
  | paid
deriving DecidableEq

/-- The breakdown subdocument of MonthlySummary. -/
structure Breakdown where
  regularPay : ℚ
  otPay : ℚ
  vacationPay : ℚ
  holidayPay : ℚ
deriving DecidableEq

/-- MonthlySummary document. -/
structure SummaryDoc where
  employeeId : Nat
  year : Int
  month : Int
  totalRegularHours : ℚ
  totalOTHours : ℚ
  totalVacationHours : ℚ
  totalHolidayHours : ℚ
  breakdown : Breakdown
  totalPayableAmount : ℚ
  status : SumStatus
  generatedBy : Nat
  finalizedAt : Option Int
  paidAt : Option Int
deriving DecidableEq

/-- The timesheets the aggregator queries: this employee's entries with
date in the inclusive month range. -/
def monthTimesheets (tss : List TimesheetDoc) (empId : Nat) (monthStart monthEnd : Int) :
    List TimesheetDoc :=
  tss.filter fun t => decide (t.employeeId = empId ∧ monthStart ≤ t.date ∧ t.date ≤ monthEnd)

/-- The four hour buckets accumulated by calculateMonthlySummary. -/
structure Totals where
  totalRegularHours : ℚ
  totalOTHours : ℚ
  totalVacationHours : ℚ
  totalHolidayHours : ℚ
deriving DecidableEq

/-- The forEach accumulation loop of calculateMonthlySummary in
reports.js: regular hours are the worked hours above the overtime split
clamped at 0, overtime accumulates as stored, and a vacation or holiday
flagged entry adds its full worked hours to that bucket as well. -/
def accumTotals (acc : Totals) (t : TimesheetDoc) : Totals :=
  { totalRegularHours := acc.totalRegularHours + max 0 (t.totalHoursWorked - t.otHours),
    totalOTHours := acc.totalOTHours + t.otHours,
    totalVacationHours :=
      acc.totalVacationHours + (if t.isVacationWork then t.totalHoursWorked else 0),
    totalHolidayHours :=
      acc.totalHolidayHours + (if t.isHolidayWork then t.totalHoursWorked else 0) }

/-- The totals of a list of timesheets, starting from zeros. -/
def calcTotals (tss : List TimesheetDoc) : Totals :=
  tss.foldl accumTotals ⟨0, 0, 0, 0⟩

/-- MonthlySummary.methods.calculatePayableAmount: the four pay
components at the employee's rates (holiday at the regular rate) and
their sum. -/
def calculatePayableAmount (s : SummaryDoc) (emp : Employee) : SummaryDoc :=
  let b : Breakdown :=
    { regularPay := s.totalRegularHours * emp.payRate,
      otPay := s.totalOTHours * emp.otRate,
      vacationPay := s.totalVacationHours * emp.vacationPayRate,
      holidayPay := s.totalHolidayHours * emp.payRate }
  { s with
    breakdown := b,
    totalPayableAmount := b.regularPay + b.otPay + b.vacationPay + b.holidayPay }

/-- The calculateMonthlySummary helper of reports.js: fetch the month's
timesheets for the employee, overwrite the four totals of the summary,
and recompute the pay breakdown. -/
def calculateMonthlySummary (s : SummaryDoc) (emp : Employee) (tss : List TimesheetDoc)
    (monthStart monthEnd : Int) : SummaryDoc :=
  let tot := calcTotals (monthTimesheets tss emp.id monthStart monthEnd)
  calculatePayableAmount
    { s with
      totalRegularHours := tot.totalRegularHours,
      totalOTHours := tot.totalOTHours,
      totalVacationHours := tot.totalVacationHours,
      totalHolidayHours := tot.totalHolidayHours }
    emp

/-- The update branch of the generate loop: recompute the found summary
and stamp generatedBy before saving. -/
def updateSummaryDoc (d : SummaryDoc) (emp : Employee) (tss : List TimesheetDoc)
    (monthStart monthEnd : Int) (userId : Nat) : SummaryDoc :=
  { calculateMonthlySummary d emp tss monthStart monthEnd with generatedBy := userId }

/-- The create branch of the generate loop: a new MonthlySummary with
the key fields and generatedBy (status defaults to draft), recomputed
and saved. -/
def newSummaryDoc (emp : Employee) (year month : Int) (tss : List TimesheetDoc)
    (monthStart monthEnd : Int) (userId : Nat) : SummaryDoc :=
  calculateMonthlySummary
    { employeeId := emp.id, year := year, month := month,
      totalRegularHours := 0, totalOTHours := 0,
      totalVacationHours := 0, totalHolidayHours := 0,
      breakdown := ⟨0, 0, 0, 0⟩, totalPayableAmount := 0,
      status := .draft, generatedBy := userId, finalizedAt := none, paidAt := none }
    emp tss monthStart monthEnd

/-- One iteration of the generate loop for one employee: findOne on the
(employeeId, year, month) key, update the first match in place, or push
a fresh draft summary. -/
def upsertSummary (emp : Employee) (year month : Int) (tss : List TimesheetDoc)
    (monthStart monthEnd : Int) (userId : Nat) :
    List SummaryDoc → List SummaryDoc
  | [] => [newSummaryDoc emp year month tss monthStart monthEnd userId]
  | d :: rest =>
    if d.employeeId = emp.id ∧ d.year = year ∧ d.month = month then
      updateSummaryDoc d emp tss monthStart monthEnd userId :: rest
    else
      d :: upsertSummary emp year month tss monthStart monthEnd userId rest

/-- POST /api/reports/generate/:year/:month: adminOrManager middleware,
range checks on month and year, then the upsert loop over all active
employees. -/
def generateSummaries (employees : List Employee) (tss : List TimesheetDoc)
    (year month monthStart monthEnd : Int) (user : Principal)
    (store : List SummaryDoc) : Except ErrResponse (List SummaryDoc) :=
  if ¬ (user.role = .admin ∨ user.role = .manager) then
    .error ⟨403, "Access denied. Insufficient permissions."⟩
  else if month < 1 ∨ month > 12 then .error ⟨400, "Invalid month"⟩
  else if year < 2020 ∨ year > 2030 then .error ⟨400, "Invalid year"⟩
  else
    .ok ((employees.filter fun emp => emp.status = EmpStatus.active).foldl
      (fun st emp => upsertSummary emp year month tss monthStart monthEnd user.id st) store)

/-- PUT /api/reports/monthly/:id/finalize, after the summary has been
found: refuse an already finalized summary, otherwise set status
finalized and stamp finalizedAt and save. -/
def finalizeSummary (s : SummaryDoc) (now : Int) : Except ErrResponse SummaryDoc :=
  if s.status = SumStatus.finalized then
    .error ⟨400, "Summary already finalized"⟩
  else
    .ok { s with status := SumStatus.finalized, finalizedAt := some now }

/-! ### Concrete instances used in counterexamples and witnesses -/

/-- Witness data for C5: a concrete submitted expense. -/
def wExp1 : ExpenseDoc :=
  { id := 1, date := 100, employeeId := 5, category := "meals",
    description := "lunch", amount := 50, currency := "LKR", receipt := none,
    notes := none, createdBy := 9, lastModifiedBy := none,
    status := ExpStatus.submitted, approvedBy := none, approvedAt := none,
    rejectionReason := "" }

/-- Admin principal used in concrete instances. -/
def wAdmin : Principal := ⟨2, Role.admin, 0⟩

/-- Witness data for C8: a concrete draft summary. -/
def wDraftSum : SummaryDoc :=
  { employeeId := 5, year := 2024, month := 5, totalRegularHours := 160,
    totalOTHours := 10, totalVacationHours := 0, totalHolidayHours := 0,
    breakdown := ⟨4000, 375, 0, 0⟩, totalPayableAmount := 4375,
    status := SumStatus.draft, generatedBy := 2, finalizedAt := none, paidAt := none }

/-- Witness data for C10: a draft expense owned by employee 5. -/
def wExpDraft : ExpenseDoc :=
  { id := 3, date := 100, employeeId := 5, category := "meals",
    description := "dinner", amount := 20, currency := "LKR", receipt := none,
    notes := none, createdBy := 20, lastModifiedBy := none,
    status := ExpStatus.draft, approvedBy := none, approvedAt := none,
    rejectionReason := "" }

/-- The employee principal linked to employee 5. -/
def wEmpUser : Principal := ⟨20, Role.employee, 5⟩

/-- A body containing only a status field set to approved. -/
def wStatusBody : ExpenseUpdateBody :=
  { date := none, employeeId := none, category := none, description := none,
    amount := none, currency := none, receipt := none, notes := none,
    status := some ExpStatus.approved, approvedBy := none, approvedAt := none,
    rejectionReason := none }

/-- An approved timesheet belonging to employee 5, used in the C6
analysis. -/
def wTsApproved : TimesheetDoc :=
  { id := 1, date := 100, employeeId := 5, startTime := "09:00",
    endTime := "17:00", breakTime := 0, totalHoursWorked := 8, otHours := 0,
    isVacationWork := false, isHolidayWork := false, notes := "",
    createdBy := 20, lastModifiedBy := none, status := TsStatus.approved }

/-- A timesheet update body that only edits the notes field. -/
def wNotesBody : TimesheetUpdateBody :=
  { date := none, employeeId := none, startTime := none, endTime := none,
    breakTime := none, totalHoursWorked := none, otHours := none,
    isVacationWork := none, isHolidayWork := none, notes := some "edited",
    status := none }

/-- A timesheet belonging to employee 6, a stranger to wEmpUser. -/
def wTsOther : TimesheetDoc :=
  { id := 4, date := 100, employeeId := 6, startTime := "09:00",
    endTime := "17:00", breakTime := 0, totalHoursWorked := 8, otHours := 0,
    isVacationWork := false, isHolidayWork := false, notes := "",
    createdBy := 21, lastModifiedBy := none, status := TsStatus.draft }

/-- A second timesheet of employee 5 on a different date, used for the
C7 analysis. -/
def wTsDay2 : TimesheetDoc :=
  { id := 2, date := 200, employeeId := 5, startTime := "09:00",
    endTime := "17:00", breakTime := 0, totalHoursWorked := 8, otHours := 0,
    isVacationWork := false, isHolidayWork := false, notes := "",
    createdBy := 20, lastModifiedBy := none, status := TsStatus.draft }

/-- A timesheet update body that only moves the date to 100. -/
def wDateBody : TimesheetUpdateBody :=
  { date := some 100, employeeId := none, startTime := none, endTime := none,
    breakTime := none, totalHoursWorked := none, otHours := none,
    isVacationWork := none, isHolidayWork := none, notes := none,
    status := none }

/-- The invariant of C7: no two distinct positions of the store share an
(employeeId, date) pair. -/
def atMostOnePerDay (store : List TimesheetDoc) : Prop :=
  store.Pairwise fun a b => ¬ (a.employeeId = b.employeeId ∧ a.date = b.date)

/-- Witness for C7 as amended: with employee 5 present and the concrete
store already holding a timesheet for employee 5 on date 100, a second
create for the same pair returns the already-exists error. -/
def wEmployee5 : Employee :=
  { id := 5, employeeId := "EMP005", name := "Jane", position := "Dev",
    payRate := 25, otRate := 37, vacationPayRate := 25, status := EmpStatus.active }

/-- A creation body for employee 5 on date 100. -/
def wCreateBody : TimesheetCreateBody :=
  { date := 100, employeeId := 5, startTime := "09:00", endTime := "17:00",
    breakTime := 0, isVacationWork := false, isHolidayWork := false,
    notes := "", totalHoursWorked := none, otHours := none }

/-- A body that changes startTime and also carries client-chosen values
for the derived fields. -/
def wDerivedBody : TimesheetUpdateBody :=
  { date := none, employeeId := none, startTime := some "08:00", endTime := none,
    breakTime := none, totalHoursWorked := some 23, otHours := some 9,
    isVacationWork := none, isHolidayWork := none, notes := none, status := none }

/-- A body that changes only startTime. -/
def wStartOnlyBody : TimesheetUpdateBody :=
  { date := none, employeeId := none, startTime := some "08:00", endTime := none,
    breakTime := none, totalHoursWorked := none, otHours := none,
    isVacationWork := none, isHolidayWork := none, notes := none, status := none }

end EmpRole

namespace EmpRole

/-- C1: for every well-formed input, the time calculator returns
hoursWorked = max(0, ((endMinutes - startMinutes) + (1440 if end wraps
past midnight else 0)) - breakTime) / 60 and otHours = max(0,
hoursWorked - 8); in particular start 22:00, end 06:00, break 0 gives
(8, 0), and start 09:00, end 09:30, break 60 gives hoursWorked 0. -/
theorem calculateHours_spec :
    (∀ (startTime endTime : String) (breakTime s e : Int),
        parseTime startTime = some s →
        parseTime endTime = some e →
        0 ≤ breakTime → breakTime ≤ 480 →
        calculateHours startTime endTime breakTime =
          some ⟨max 0 ((e : ℚ) - s + (if e < s then 1440 else 0) - breakTime) / 60,
                max 0 (max 0 ((e : ℚ) - s + (if e < s then 1440 else 0) - breakTime) / 60 - 8)⟩)
    ∧ calculateHours "22:00" "06:00" 0 = some ⟨8, 0⟩
    ∧ calculateHours "09:00" "09:30" 60 = some ⟨0, 0⟩ := by
  refine ⟨?_, ?_, ?_⟩
  · intro startTime endTime breakTime s e hs he _ _
    simp only [calculateHours, hs, he]
    have hite : (((if e - s < 0 then e - s + 24 * 60 else e - s) - breakTime : Int) : ℚ) =
        (e : ℚ) - s + (if e < s then 1440 else 0) - breakTime := by
      by_cases h : e < s
      · rw [if_pos (by omega), if_pos h]
        push_cast
        ring
      · rw [if_neg (by omega), if_neg h]
        push_cast
        ring
    have hmax : max 0 ((((if e - s < 0 then e - s + 24 * 60 else e - s) - breakTime : Int) : ℚ) / 60) =
        max 0 ((e : ℚ) - s + (if e < s then 1440 else 0) - breakTime) / 60 := by
      rw [hite, ← max_div_div_right (by norm_num : (0:ℚ) ≤ 60), zero_div]
    rw [Option.some.injEq, HoursResult.mk.injEq]
    exact ⟨hmax, by rw [hmax]⟩
  · have h1 : parseTime "22:00" = some 1320 := by decide
    have h2 : parseTime "06:00" = some 360 := by decide
    simp only [calculateHours, h1, h2]
    norm_num [max_def]
  · have h1 : parseTime "09:00" = some 540 := by decide
    have h2 : parseTime "09:30" = some 570 := by decide
    simp only [calculateHours, h1, h2]
    norm_num [max_def]

/-- Witness for C1: a concrete 10:00-19:00 shift with a 30 minute break
comes out at 8.5 hours worked and 0.5 hours overtime. -/
theorem calculateHours_spec_witness :
    calculateHours "10:00" "19:00" 30 = some ⟨17 / 2, 1 / 2⟩ := by
  have h := calculateHours_spec.1 "10:00" "19:00" 30 600 1140
    (by decide) (by decide) (by decide) (by decide)
  rw [h]
  norm_num [max_def]

/-- The accumulation loop unrolled: each bucket of the fold is the
starting value plus the corresponding sum over the list. -/
theorem foldl_accumTotals (l : List TimesheetDoc) : ∀ acc : Totals,
    (l.foldl accumTotals acc).totalRegularHours =
      acc.totalRegularHours + (l.map fun t => max 0 (t.totalHoursWorked - t.otHours)).sum ∧
    (l.foldl accumTotals acc).totalOTHours =
      acc.totalOTHours + (l.map fun t => t.otHours).sum ∧
    (l.foldl accumTotals acc).totalVacationHours =
      acc.totalVacationHours +
        (l.map fun t => if t.isVacationWork then t.totalHoursWorked else 0).sum ∧
    (l.foldl accumTotals acc).totalHolidayHours =
      acc.totalHolidayHours +
        (l.map fun t => if t.isHolidayWork then t.totalHoursWorked else 0).sum := by
  induction l with
  | nil => intro acc; simp
  | cons t ts ih =>
    intro acc
    obtain ⟨h1, h2, h3, h4⟩ := ih (accumTotals acc t)
    refine ⟨?_, ?_, ?_, ?_⟩
    · rw [List.foldl_cons, h1, List.map_cons, List.sum_cons]
      simp only [accumTotals]
      ring
    · rw [List.foldl_cons, h2, List.map_cons, List.sum_cons]
      simp only [accumTotals]
      ring
    · rw [List.foldl_cons, h3, List.map_cons, List.sum_cons]
      simp only [accumTotals]
      ring
    · rw [List.foldl_cons, h4, List.map_cons, List.sum_cons]
      simp only [accumTotals]
      ring

/-- Equal ways of summing a flagged bucket: summing the worked hours of
the flagged entries equals summing an if-guarded contribution over all
entries. -/
theorem sum_filter_flag (l : List TimesheetDoc) (flag : TimesheetDoc → Bool) :
    (((l.filter flag).map fun t => t.totalHoursWorked).sum : ℚ) =
      (l.map fun t => if flag t then t.totalHoursWorked else 0).sum := by
  induction l with
  | nil => simp
  | cons t ts ih =>
    by_cases h : flag t <;> simp [List.filter_cons, h, ih]

/-- C2: the monthly summary computed for an employee from the timesheet
entries dated within the month has totalRegularHours equal to the sum of
max(0, totalHoursWorked - otHours), totalOTHours equal to the sum of
otHours, totalVacationHours equal to the sum of the full worked hours of
the vacation-flagged entries (in addition to their regular and overtime
contribution, which already ranges over all entries), likewise
totalHolidayHours, and totalPayableAmount equal to regular*payRate +
ot*otRate + vacation*vacationPayRate + holiday*payRate. -/
theorem monthlySummary_totals (s : SummaryDoc) (emp : Employee) (tss : List TimesheetDoc)
    (monthStart monthEnd : Int) :
    (calculateMonthlySummary s emp tss monthStart monthEnd).totalRegularHours =
      ((monthTimesheets tss emp.id monthStart monthEnd).map
        fun t => max 0 (t.totalHoursWorked - t.otHours)).sum ∧
    (calculateMonthlySummary s emp tss monthStart monthEnd).totalOTHours =
      ((monthTimesheets tss emp.id monthStart monthEnd).map fun t => t.otHours).sum ∧
    (calculateMonthlySummary s emp tss monthStart monthEnd).totalVacationHours =
      (((monthTimesheets tss emp.id monthStart monthEnd).filter
        fun t => t.isVacationWork).map fun t => t.totalHoursWorked).sum ∧
    (calculateMonthlySummary s emp tss monthStart monthEnd).totalHolidayHours =
      (((monthTimesheets tss emp.id monthStart monthEnd).filter
        fun t => t.isHolidayWork).map fun t => t.totalHoursWorked).sum ∧
    (calculateMonthlySummary s emp tss monthStart monthEnd).totalPayableAmount =
      (calculateMonthlySummary s emp tss monthStart monthEnd).totalRegularHours * emp.payRate +
      (calculateMonthlySummary s emp tss monthStart monthEnd).totalOTHours * emp.otRate +
      (calculateMonthlySummary s emp tss monthStart monthEnd).totalVacationHours *
        emp.vacationPayRate +
      (calculateMonthlySummary s emp tss monthStart monthEnd).totalHolidayHours * emp.payRate := by
  obtain ⟨h1, h2, h3, h4⟩ :=
    foldl_accumTotals (monthTimesheets tss emp.id monthStart monthEnd) ⟨0, 0, 0, 0⟩
  simp only [calculateMonthlySummary, calculatePayableAmount, calcTotals] at *
  refine ⟨by simp [h1], by simp [h2], ?_, ?_, by simp⟩
  · simp [h3, sum_filter_flag]
  · simp [h4, sum_filter_flag]

/-- C5: with the expense found, approval by an admin or manager succeeds
exactly when the status is submitted or rejected (in particular approval
of a draft fails with the route's 400 error, and an error result writes
nothing), and on success sets status approved and stamps approvedBy and
approvedAt; rejection succeeds exactly when the status is submitted or
approved, and on success sets status rejected. -/
theorem expense_approve_reject_guards (store : List ExpenseDoc) (user : Principal)
    (expId : Nat) (now : Int) (reason : Option String) (e : ExpenseDoc)
    (hrole : user.role = .admin ∨ user.role = .manager)
    (hfind : store.find? (fun d => d.id = expId) = some e) :
    ((∃ r, approveExpense store user expId now = .ok r) ↔
        e.status = .submitted ∨ e.status = .rejected) ∧
    (e.status = .draft →
      approveExpense store user expId now =
        .error ⟨400, "Only submitted or rejected expenses can be approved"⟩) ∧
    (e.status = .submitted ∨ e.status = .rejected →
      approveExpense store user expId now =
        .ok ({ e with status := ExpStatus.approved, approvedBy := some user.id,
                      approvedAt := some now, lastModifiedBy := some user.id },
             replaceExp store
               { e with status := ExpStatus.approved, approvedBy := some user.id,
                        approvedAt := some now, lastModifiedBy := some user.id })) ∧
    ((∃ r, rejectExpense store user expId reason = .ok r) ↔
        e.status = .submitted ∨ e.status = .approved) ∧
    (e.status = .submitted ∨ e.status = .approved →
      rejectExpense store user expId reason =
        .ok ({ e with status := ExpStatus.rejected, rejectionReason := reason.getD "",
                      lastModifiedBy := some user.id },
             replaceExp store
               { e with status := ExpStatus.rejected, rejectionReason := reason.getD "",
                        lastModifiedBy := some user.id })) := by
  have hra : ¬ ¬ (user.role = .admin ∨ user.role = .manager) := not_not_intro hrole
  simp only [approveExpense, rejectExpense, hfind, if_neg hra]
  refine ⟨?_, ?_, ?_, ?_, ?_⟩
  · by_cases hs : e.status = .submitted ∨ e.status = .rejected
    · simp [hs]
    · simp [hs]
  · intro hd
    rw [if_pos]
    rw [hd]
    rintro (h | h) <;> exact ExpStatus.noConfusion h
  · intro hs
    rw [if_neg (not_not_intro hs)]
  · by_cases hs : e.status = .submitted ∨ e.status = .approved
    · simp [hs]
    · simp [hs]
  · intro hs
    rw [if_neg (not_not_intro hs)]

/-- Witness for C5: the concrete submitted expense in a one-document
store is approved by an admin, with the approval stamps set. -/
theorem expense_approve_reject_guards_witness :
    approveExpense [wExp1] wAdmin 1 1000 =
      .ok ({ wExp1 with status := ExpStatus.approved, approvedBy := some wAdmin.id,
                        approvedAt := some 1000, lastModifiedBy := some wAdmin.id },
           replaceExp [wExp1]
             { wExp1 with status := ExpStatus.approved, approvedBy := some wAdmin.id,
                          approvedAt := some 1000, lastModifiedBy := some wAdmin.id }) :=
  (expense_approve_reject_guards [wExp1] wAdmin 1 1000 none wExp1
    (Or.inl rfl) (by decide)).2.2.1 (Or.inl rfl)

/-- C8: finalizing an already finalized summary fails with the route's
400 error (an error result writes nothing), finalizing a draft summary
succeeds and sets status finalized and stamps finalizedAt, every
successful finalization ends in status finalized, and the regeneration
update path preserves the stored status, so no modeled operation moves a
summary out of finalized. -/
theorem finalize_one_way (s : SummaryDoc) (now : Int) :
    (s.status = SumStatus.finalized →
      finalizeSummary s now = .error ⟨400, "Summary already finalized"⟩) ∧
    (s.status = SumStatus.draft →
      finalizeSummary s now =
        .ok { s with status := SumStatus.finalized, finalizedAt := some now }) ∧
    (∀ s', finalizeSummary s now = .ok s' → s'.status = SumStatus.finalized) ∧
    (∀ emp tss monthStart monthEnd userId,
      (updateSummaryDoc s emp tss monthStart monthEnd userId).status = s.status) := by
  refine ⟨?_, ?_, ?_, ?_⟩
  · intro h
    simp [finalizeSummary, h]
  · intro h
    rw [finalizeSummary, if_neg]
    rw [h]
    exact fun hc => SumStatus.noConfusion hc
  · intro s' h
    rw [finalizeSummary] at h
    by_cases hs : s.status = SumStatus.finalized
    · simp [hs] at h
    · rw [if_neg hs] at h
      cases h
      rfl
  · intro emp tss monthStart monthEnd userId
    rfl

/-- Witness for C8: the concrete draft summary is finalized, and the
finalized summary then refuses a second finalization. -/
theorem finalize_one_way_witness :
    finalizeSummary wDraftSum 1000 =
      .ok { wDraftSum with status := SumStatus.finalized, finalizedAt := some 1000 } ∧
    finalizeSummary { wDraftSum with status := SumStatus.finalized, finalizedAt := some 1000 }
        2000 = .error ⟨400, "Summary already finalized"⟩ :=
  ⟨(finalize_one_way wDraftSum 1000).2.1 rfl,
   (finalize_one_way
      { wDraftSum with status := SumStatus.finalized, finalizedAt := some 1000 } 2000).1 rfl⟩

/-- C10: the generic expense update endpoint applies every schema path
present in the body, status included: an employee who owns a draft or
rejected expense can send status approved through PUT /api/expenses/:id,
the update succeeds, the stored status becomes approved, and since the
body carries no approvedBy or approvedAt the stamps keep their old
values (none for a never-approved draft), bypassing the approve
endpoint's submitted-or-rejected guard and its stamping. -/
theorem expense_update_status_bypass (store : List ExpenseDoc) (user : Principal)
    (expId : Nat) (b : ExpenseUpdateBody) (e : ExpenseDoc)
    (hrole : user.role = .employee)
    (hfind : store.find? (fun d => d.id = expId) = some e)
    (hown : e.employeeId = user.linkedEmployeeId)
    (hst : e.status = .draft ∨ e.status = .rejected)
    (hbst : b.status = some ExpStatus.approved)
    (hbby : b.approvedBy = none) (hbat : b.approvedAt = none)
    (hvalid : expDocValid (applyExpUpdate e b user.id)) :
    updateExpense store user expId b =
      .ok (applyExpUpdate e b user.id, replaceExp store (applyExpUpdate e b user.id)) ∧
    (applyExpUpdate e b user.id).status = ExpStatus.approved ∧
    (applyExpUpdate e b user.id).approvedBy = e.approvedBy ∧
    (applyExpUpdate e b user.id).approvedAt = e.approvedAt := by
  refine ⟨?_, ?_, ?_, ?_⟩
  · simp only [updateExpense, hfind]
    rw [if_neg (by simp [hown]), if_neg (by simp [hst]), if_pos hvalid]
  · simp [applyExpUpdate, hbst]
  · simp [applyExpUpdate, hbby]
  · simp [applyExpUpdate, hbat]

/-- Witness for C10: the owning employee moves the concrete draft
expense straight to approved through the generic update, with the
approval stamps left unset. -/
theorem expense_update_status_bypass_witness :
    updateExpense [wExpDraft] wEmpUser 3 wStatusBody =
      .ok (applyExpUpdate wExpDraft wStatusBody wEmpUser.id,
           replaceExp [wExpDraft] (applyExpUpdate wExpDraft wStatusBody wEmpUser.id)) ∧
    (applyExpUpdate wExpDraft wStatusBody wEmpUser.id).status = ExpStatus.approved ∧
    (applyExpUpdate wExpDraft wStatusBody wEmpUser.id).approvedBy = none ∧
    (applyExpUpdate wExpDraft wStatusBody wEmpUser.id).approvedAt = none :=
  expense_update_status_bypass [wExpDraft] wEmpUser 3 wStatusBody wExpDraft
    rfl (by decide) rfl (Or.inl rfl) rfl rfl rfl (by decide)

/-- Counterexample to C6 as stated: the owning employee edits their own
approved timesheet through PUT /api/timesheets/:id and the operation
succeeds, where the claim requires an authorization failure for any
status other than draft or rejected. -/
theorem timesheet_edit_policy_counterexample :
    wEmpUser.role = Role.employee ∧
    wTsApproved.employeeId = wEmpUser.linkedEmployeeId ∧
    wTsApproved.status = TsStatus.approved ∧
    updateTimesheet [wTsApproved] wEmpUser 1 wNotesBody =
      .ok (applyTsUpdate wTsApproved wNotesBody wEmpUser.id,
           replaceTs [wTsApproved] (applyTsUpdate wTsApproved wNotesBody wEmpUser.id)) := by
  exact ⟨rfl, rfl, rfl, rfl⟩

/-- C6 as amended: the timesheet update route checks only ownership for
the employee role, never status, so an owning employee's edit succeeds
in every status; only the expense update route restricts the owning
employee to draft or rejected (succeeding exactly there and failing with
403 otherwise); and admin or manager may edit a timesheet regardless of
status. -/
theorem timesheet_edit_policy :
    (∀ (store : List TimesheetDoc) (user : Principal) (tsId : Nat)
        (b : TimesheetUpdateBody) (t : TimesheetDoc),
      user.role = .employee →
      store.find? (fun d => d.id = tsId) = some t →
      t.employeeId = user.linkedEmployeeId →
      optValidTime b.startTime ∧ optValidTime b.endTime →
      tsDocValid (applyTsUpdate t b user.id) →
      updateTimesheet store user tsId b =
        .ok (applyTsUpdate t b user.id, replaceTs store (applyTsUpdate t b user.id))) ∧
    (∀ (store : List ExpenseDoc) (user : Principal) (expId : Nat)
        (b : ExpenseUpdateBody) (e : ExpenseDoc),
      user.role = .employee →
      store.find? (fun d => d.id = expId) = some e →
      e.employeeId = user.linkedEmployeeId →
      ¬ (e.status = .draft ∨ e.status = .rejected) →
      updateExpense store user expId b =
        .error ⟨403, "You can only update expenses that are in draft or rejected status"⟩) ∧
    (∀ (store : List ExpenseDoc) (user : Principal) (expId : Nat)
        (b : ExpenseUpdateBody) (e : ExpenseDoc),
      user.role = .employee →
      store.find? (fun d => d.id = expId) = some e →
      e.employeeId = user.linkedEmployeeId →
      (e.status = .draft ∨ e.status = .rejected) →
      expDocValid (applyExpUpdate e b user.id) →
      updateExpense store user expId b =
        .ok (applyExpUpdate e b user.id, replaceExp store (applyExpUpdate e b user.id))) ∧
    (∀ (store : List TimesheetDoc) (user : Principal) (tsId : Nat)
        (b : TimesheetUpdateBody) (t : TimesheetDoc),
      user.role = .admin ∨ user.role = .manager →
      store.find? (fun d => d.id = tsId) = some t →
      optValidTime b.startTime ∧ optValidTime b.endTime →
      tsDocValid (applyTsUpdate t b user.id) →
      updateTimesheet store user tsId b =
        .ok (applyTsUpdate t b user.id, replaceTs store (applyTsUpdate t b user.id))) := by
  refine ⟨?_, ?_, ?_, ?_⟩
  · intro store user tsId b t _ hfind hown hfmt hvalid
    simp only [updateTimesheet, hfind]
    rw [if_neg (not_not_intro hfmt), if_neg (by simp [hown]), if_pos hvalid]
  · intro store user expId b e hr hfind hown hst
    simp only [updateExpense, hfind]
    rw [if_neg (by simp [hown]), if_pos ⟨hr, hst⟩]
  · intro store user expId b e _ hfind hown hst hvalid
    simp only [updateExpense, hfind]
    rw [if_neg (by simp [hown]), if_neg (by simp [hst]), if_pos hvalid]
  · intro store user tsId b t hrole hfind hfmt hvalid
    have hne : ¬ (user.role = .employee ∧ t.employeeId ≠ user.linkedEmployeeId) := by
      rcases hrole with h | h <;> rw [h] <;> rintro ⟨hc, -⟩ <;> exact Role.noConfusion hc
    simp only [updateTimesheet, hfind]
    rw [if_neg (not_not_intro hfmt), if_neg hne, if_pos hvalid]

/-- Witness for C6 as amended: the owning employee edits the notes of
their approved timesheet and the update succeeds. -/
theorem timesheet_edit_policy_witness :
    updateTimesheet [wTsApproved] wEmpUser 1 wNotesBody =
      .ok (applyTsUpdate wTsApproved wNotesBody wEmpUser.id,
           replaceTs [wTsApproved] (applyTsUpdate wTsApproved wNotesBody wEmpUser.id)) :=
  timesheet_edit_policy.1 [wTsApproved] wEmpUser 1 wNotesBody wTsApproved
    rfl (by decide) rfl (by decide) (by decide)

/-- Counterexample to C9 as stated: for the employee principal linked to
employee 5, a request for a nonexistent timesheet id returns the 404
not-found response while the same request against an existing timesheet
of employee 6 returns the 403 denial, so the response differs with
record existence. -/
theorem cross_employee_denial_counterexample :
    wEmpUser.role = Role.employee ∧
    getTimesheet [] wEmpUser 4 = .error ⟨404, "Timesheet not found"⟩ ∧
    getTimesheet [wTsOther] wEmpUser 4 = .error ⟨403, "Access denied"⟩ ∧
    (⟨404, "Timesheet not found"⟩ : ErrResponse) ≠ ⟨403, "Access denied"⟩ := by
  refine ⟨rfl, rfl, rfl, ?_⟩
  decide

/-- C9 as amended: when the targeted record exists and belongs to a
different employee, an employee caller's read or update of a timesheet
or expense fails with the route's 403 authorization response; but each
handler looks the record up before the ownership check, so a nonexistent
id yields the 404 not-found response instead, and the denial therefore
reveals whether the record exists. -/
theorem cross_employee_denied (user : Principal) (h : user.role = .employee) :
    (∀ (store : List TimesheetDoc) (tsId : Nat) (t : TimesheetDoc),
      store.find? (fun d => d.id = tsId) = some t →
      t.employeeId ≠ user.linkedEmployeeId →
      getTimesheet store user tsId = .error ⟨403, "Access denied"⟩) ∧
    (∀ (store : List TimesheetDoc) (tsId : Nat),
      store.find? (fun d => d.id = tsId) = none →
      getTimesheet store user tsId = .error ⟨404, "Timesheet not found"⟩) ∧
    (∀ (store : List TimesheetDoc) (tsId : Nat) (b : TimesheetUpdateBody) (t : TimesheetDoc),
      optValidTime b.startTime ∧ optValidTime b.endTime →
      store.find? (fun d => d.id = tsId) = some t →
      t.employeeId ≠ user.linkedEmployeeId →
      updateTimesheet store user tsId b =
        .error ⟨403, "You can only update your own timesheets"⟩) ∧
    (∀ (store : List TimesheetDoc) (tsId : Nat) (b : TimesheetUpdateBody),
      optValidTime b.startTime ∧ optValidTime b.endTime →
      store.find? (fun d => d.id = tsId) = none →
      updateTimesheet store user tsId b = .error ⟨404, "Timesheet not found"⟩) ∧
    (∀ (store : List ExpenseDoc) (expId : Nat) (e : ExpenseDoc),
      store.find? (fun d => d.id = expId) = some e →
      e.employeeId ≠ user.linkedEmployeeId →
      getExpense store user expId = .error ⟨403, "Access denied"⟩) ∧
    (∀ (store : List ExpenseDoc) (expId : Nat),
      store.find? (fun d => d.id = expId) = none →
      getExpense store user expId = .error ⟨404, "Expense not found"⟩) ∧
    (∀ (store : List ExpenseDoc) (expId : Nat) (b : ExpenseUpdateBody) (e : ExpenseDoc),
      store.find? (fun d => d.id = expId) = some e →
      e.employeeId ≠ user.linkedEmployeeId →
      updateExpense store user expId b =
        .error ⟨403, "You can only update your own expenses"⟩) ∧
    (∀ (store : List ExpenseDoc) (expId : Nat) (b : ExpenseUpdateBody),
      store.find? (fun d => d.id = expId) = none →
      updateExpense store user expId b = .error ⟨404, "Expense not found"⟩) := by
  refine ⟨?_, ?_, ?_, ?_, ?_, ?_, ?_, ?_⟩
  · intro store tsId t hfind hne
    simp only [getTimesheet, hfind]
    rw [if_pos ⟨h, hne⟩]
  · intro store tsId hfind
    simp only [getTimesheet, hfind]
  · intro store tsId b t hfmt hfind hne
    simp only [updateTimesheet, hfind]
    rw [if_neg (not_not_intro hfmt), if_pos ⟨h, hne⟩]
  · intro store tsId b hfmt hfind
    simp only [updateTimesheet, hfind]
    rw [if_neg (not_not_intro hfmt)]
  · intro store expId e hfind hne
    simp only [getExpense, hfind]
    rw [if_pos ⟨h, hne⟩]
  · intro store expId hfind
    simp only [getExpense, hfind]
  · intro store expId b e hfind hne
    simp only [updateExpense, hfind]
    rw [if_pos ⟨h, hne⟩]
  · intro store expId b hfind
    simp only [updateExpense, hfind]

/-- Witness for C9 as amended: the employee principal linked to employee
5 is denied with 403 on the existing timesheet of employee 6. -/
theorem cross_employee_denied_witness :
    getTimesheet [wTsOther] wEmpUser 4 = .error ⟨403, "Access denied"⟩ :=
  (cross_employee_denied wEmpUser rfl).1 [wTsOther] 4 wTsOther (by decide) (by decide)

/-- Counterexample to C7 as stated: starting from a store satisfying the
one-entry-per-(employeeId, date) invariant, the update operation moves
the date of the second entry onto the first entry's date with no
duplicate check, and the resulting store holds two distinct entries for
employee 5 on date 100, so the invariant is not preserved by every
operation. -/
theorem timesheet_unique_counterexample :
    updateTimesheet [wTsApproved, wTsDay2] wAdmin 2 wDateBody =
      .ok (applyTsUpdate wTsDay2 wDateBody wAdmin.id,
           [wTsApproved, applyTsUpdate wTsDay2 wDateBody wAdmin.id]) ∧
    (applyTsUpdate wTsDay2 wDateBody wAdmin.id).employeeId = wTsApproved.employeeId ∧
    (applyTsUpdate wTsDay2 wDateBody wAdmin.id).date = wTsApproved.date ∧
    (applyTsUpdate wTsDay2 wDateBody wAdmin.id).id ≠ wTsApproved.id := by
  refine ⟨rfl, rfl, rfl, ?_⟩
  decide

/-- C7 as amended: uniqueness of (employeeId, date) is enforced at
creation only: a create for a pair that already has an entry never
succeeds, and when the earlier guards pass it is rejected with the
route's 400 already-exists error; a successful create appends a document
with the requested pair, for which no entry existed, so creation
preserves the invariant; the update operation, however, can change date
or employeeId without any duplicate check and may break it. -/
theorem timesheet_create_unique (employees : List Employee) (store : List TimesheetDoc)
    (user : Principal) (b : TimesheetCreateBody) (newId : Nat) :
    ((∃ t0 ∈ store, t0.employeeId = b.employeeId ∧ t0.date = b.date) →
      (∀ t st', createTimesheet employees store user b newId ≠ .ok (t, st')) ∧
      (validTimeFormat b.startTime ∧ validTimeFormat b.endTime →
        ∀ emp, employees.find? (fun e => e.id = b.employeeId) = some emp →
        ¬ (user.role = .employee ∧ b.employeeId ≠ user.linkedEmployeeId) →
        createTimesheet employees store user b newId =
          .error ⟨400, "Timesheet already exists for this date and employee"⟩)) ∧
    (∀ t st', createTimesheet employees store user b newId = .ok (t, st') →
      st' = store ++ [t] ∧ t.employeeId = b.employeeId ∧ t.date = b.date ∧
      ¬ ∃ t0 ∈ store, t0.employeeId = b.employeeId ∧ t0.date = b.date) ∧
    (∀ t st', createTimesheet employees store user b newId = .ok (t, st') →
      atMostOnePerDay store → atMostOnePerDay st') := by
  have hexists : ∀ (hdup : ∃ t0 ∈ store, t0.employeeId = b.employeeId ∧ t0.date = b.date),
      store.any (fun t => t.employeeId = b.employeeId ∧ t.date = b.date) = true := by
    intro hdup
    obtain ⟨t0, ht0, h1, h2⟩ := hdup
    exact List.any_eq_true.2 ⟨t0, ht0, by simp [h1, h2]⟩
  have hok : ∀ t st', createTimesheet employees store user b newId = .ok (t, st') →
      st' = store ++ [t] ∧ t.employeeId = b.employeeId ∧ t.date = b.date ∧
      ¬ ∃ t0 ∈ store, t0.employeeId = b.employeeId ∧ t0.date = b.date := by
    intro t st' hcreate
    rw [createTimesheet] at hcreate
    by_cases hfmt : validTimeFormat b.startTime ∧ validTimeFormat b.endTime
    · rw [if_neg (not_not_intro hfmt)] at hcreate
      rcases hemp : employees.find? (fun e => e.id = b.employeeId) with - | emp
      · simp only [hemp] at hcreate
        exact absurd hcreate (by simp)
      · simp only [hemp] at hcreate
        by_cases hrole : user.role = .employee ∧ b.employeeId ≠ user.linkedEmployeeId
        · rw [if_pos hrole] at hcreate
          exact absurd hcreate (by simp)
        · rw [if_neg hrole] at hcreate
          by_cases hdup : store.any (fun t => t.employeeId = b.employeeId ∧ t.date = b.date)
          · rw [if_pos hdup] at hcreate
            exact absurd hcreate (by simp)
          · rw [if_neg hdup] at hcreate
            rcases hcalc : calculateHours b.startTime b.endTime b.breakTime with - | r
            · simp only [hcalc] at hcreate
              exact absurd hcreate (by simp)
            · simp only [hcalc] at hcreate
              by_cases hvalid : tsDocValid
                  { id := newId, date := b.date, employeeId := b.employeeId,
                    startTime := b.startTime, endTime := b.endTime, breakTime := b.breakTime,
                    totalHoursWorked := r.totalHoursWorked, otHours := r.otHours,
                    isVacationWork := b.isVacationWork, isHolidayWork := b.isHolidayWork,
                    notes := b.notes, createdBy := user.id, lastModifiedBy := none,
                    status := TsStatus.draft }
              · rw [if_pos hvalid, Except.ok.injEq, Prod.mk.injEq] at hcreate
                obtain ⟨ht, hst⟩ := hcreate
                refine ⟨by rw [← hst, ← ht], by rw [← ht], by rw [← ht], ?_⟩
                intro hdup2
                exact hdup (by simpa using hexists hdup2)
              · rw [if_neg hvalid] at hcreate
                exact absurd hcreate (by simp)
    · rw [if_pos hfmt] at hcreate
      exact absurd hcreate (by simp)
  refine ⟨?_, hok, ?_⟩
  · intro hdup
    constructor
    · intro t st' hcreate
      exact (hok t st' hcreate).2.2.2 hdup
    · intro hfmt emp hemp hrole
      rw [createTimesheet, if_neg (not_not_intro hfmt), hemp, if_neg hrole,
        if_pos (hexists hdup)]
  · intro t st' hcreate hinv
    obtain ⟨hst, hemp, hdate, hnodup⟩ := hok t st' hcreate
    rw [hst, atMostOnePerDay, List.pairwise_append]
    refine ⟨hinv, List.pairwise_singleton _ _, ?_⟩
    intro a ha t1 ht1
    rw [List.mem_singleton] at ht1
    rintro ⟨h1, h2⟩
    exact hnodup ⟨a, ha, by rw [h1, ht1, hemp], by rw [h2, ht1, hdate]⟩

theorem timesheet_create_unique_witness :
    createTimesheet [wEmployee5] [wTsApproved] wEmpUser wCreateBody 9 =
      .error ⟨400, "Timesheet already exists for this date and employee"⟩ :=
  ((timesheet_create_unique [wEmployee5] [wTsApproved] wEmpUser wCreateBody 9).1
    ⟨wTsApproved, by decide, rfl, rfl⟩).2 (by decide) wEmployee5 (by decide) (by decide)

/-- C3 evaluated at the failing input: the update route goes through
findByIdAndUpdate, which does not trigger the pre-save recompute hook,
so changing startTime of the stored 09:00-17:00 draft to 08:00 while
sending totalHoursWorked 23 and otHours 9 succeeds and stores the
client-supplied 23 and 9; changing only startTime leaves the stale
stored 8 hours; in both cases the calculator on the updated inputs gives
9 hours and 1 hour of overtime, which is not what is stored. -/
theorem timesheet_update_derived_stale :
    updateTimesheet [wTsDay2] wEmpUser 2 wDerivedBody =
      .ok (applyTsUpdate wTsDay2 wDerivedBody wEmpUser.id,
           replaceTs [wTsDay2] (applyTsUpdate wTsDay2 wDerivedBody wEmpUser.id)) ∧
    (applyTsUpdate wTsDay2 wDerivedBody wEmpUser.id).startTime = "08:00" ∧
    (applyTsUpdate wTsDay2 wDerivedBody wEmpUser.id).totalHoursWorked = 23 ∧
    (applyTsUpdate wTsDay2 wDerivedBody wEmpUser.id).otHours = 9 ∧
    updateTimesheet [wTsDay2] wEmpUser 2 wStartOnlyBody =
      .ok (applyTsUpdate wTsDay2 wStartOnlyBody wEmpUser.id,
           replaceTs [wTsDay2] (applyTsUpdate wTsDay2 wStartOnlyBody wEmpUser.id)) ∧
    (applyTsUpdate wTsDay2 wStartOnlyBody wEmpUser.id).startTime = "08:00" ∧
    (applyTsUpdate wTsDay2 wStartOnlyBody wEmpUser.id).endTime = "17:00" ∧
    (applyTsUpdate wTsDay2 wStartOnlyBody wEmpUser.id).breakTime = 0 ∧
    (applyTsUpdate wTsDay2 wStartOnlyBody wEmpUser.id).totalHoursWorked = 8 ∧
    calculateHours "08:00" "17:00" 0 = some ⟨9, 1⟩ ∧
    (23 : ℚ) ≠ 9 ∧ (8 : ℚ) ≠ 9 := by
  refine ⟨rfl, rfl, rfl, rfl, rfl, rfl, rfl, rfl, rfl, ?_, by decide, by decide⟩
  have h1 : parseTime "08:00" = some 480 := by decide
  have h2 : parseTime "17:00" = some 1020 := by decide
  simp only [calculateHours, h1, h2]
  norm_num [max_def]

/-! ### Idempotence of batch generation (C4)

The helper lemmas below track one upsert step of the generate loop:
re-running it writes the very same recomputed document, a step for a
different employee id leaves a stable key untouched, and folding steps
whose keys are already stable is the identity. -/

/-- The update branch does not touch the employeeId. -/
theorem updateSummaryDoc_employeeId (d : SummaryDoc) (emp : Employee)
    (tss : List TimesheetDoc) (ms me : Int) (u : Nat) :
    (updateSummaryDoc d emp tss ms me u).employeeId = d.employeeId := rfl

/-- The update branch does not touch the year. -/
theorem updateSummaryDoc_year (d : SummaryDoc) (emp : Employee)
    (tss : List TimesheetDoc) (ms me : Int) (u : Nat) :
    (updateSummaryDoc d emp tss ms me u).year = d.year := rfl

/-- The update branch does not touch the month. -/
theorem updateSummaryDoc_month (d : SummaryDoc) (emp : Employee)
    (tss : List TimesheetDoc) (ms me : Int) (u : Nat) :
    (updateSummaryDoc d emp tss ms me u).month = d.month := rfl

/-- Re-running the update branch writes the same document: every field
it sets depends only on the employee, the timesheets and the caller. -/
theorem updateSummaryDoc_idem (d : SummaryDoc) (emp : Employee)
    (tss : List TimesheetDoc) (ms me : Int) (u : Nat) :
    updateSummaryDoc (updateSummaryDoc d emp tss ms me u) emp tss ms me u =
      updateSummaryDoc d emp tss ms me u := rfl

/-- A freshly created summary is a fixed point of the update branch. -/
theorem updateSummaryDoc_new (emp : Employee) (y m : Int) (tss : List TimesheetDoc)
    (ms me : Int) (u : Nat) :
    updateSummaryDoc (newSummaryDoc emp y m tss ms me u) emp tss ms me u =
      newSummaryDoc emp y m tss ms me u := rfl

/-- Re-running one upsert step is the identity on its own output. -/
theorem upsertSummary_idem (emp : Employee) (y m : Int) (tss : List TimesheetDoc)
    (ms me : Int) (u : Nat) (st : List SummaryDoc) :
    upsertSummary emp y m tss ms me u (upsertSummary emp y m tss ms me u st) =
      upsertSummary emp y m tss ms me u st := by
  induction st with
  | nil =>
    simp only [upsertSummary]
    rw [if_pos ⟨rfl, rfl, rfl⟩, updateSummaryDoc_new]
  | cons d rest ih =>
    by_cases hd : d.employeeId = emp.id ∧ d.year = y ∧ d.month = m
    · have h1 : upsertSummary emp y m tss ms me u (d :: rest) =
          updateSummaryDoc d emp tss ms me u :: rest := by
        simp only [upsertSummary]
        rw [if_pos hd]
      rw [h1]
      simp only [upsertSummary]
      rw [if_pos ⟨(updateSummaryDoc_employeeId d emp tss ms me u).trans hd.1,
        (updateSummaryDoc_year d emp tss ms me u).trans hd.2.1,
        (updateSummaryDoc_month d emp tss ms me u).trans hd.2.2⟩,
        updateSummaryDoc_idem]
    · have h1 : upsertSummary emp y m tss ms me u (d :: rest) =
          d :: upsertSummary emp y m tss ms me u rest := by
        simp only [upsertSummary]
        rw [if_neg hd]
      rw [h1]
      simp only [upsertSummary]
      rw [if_neg hd, ih]

/-- An upsert step for a different employee id preserves stability of a
stable key: the stable key's document is left in place unchanged. -/
theorem upsertSummary_stable_preserved (emp emp' : Employee) (y m ms me : Int)
    (tss : List TimesheetDoc) (u : Nat) (hne : emp'.id ≠ emp.id) :
    ∀ st : List SummaryDoc,
    upsertSummary emp y m tss ms me u st = st →
    upsertSummary emp y m tss ms me u (upsertSummary emp' y m tss ms me u st) =
      upsertSummary emp' y m tss ms me u st := by
  intro st
  induction st with
  | nil =>
    intro hstable
    simp only [upsertSummary] at hstable
    exact absurd hstable (by simp)
  | cons d rest ih =>
    intro hstable
    by_cases hd : d.employeeId = emp.id ∧ d.year = y ∧ d.month = m
    · have hd' : ¬ (d.employeeId = emp'.id ∧ d.year = y ∧ d.month = m) := by
        rintro ⟨h1, -, -⟩
        exact hne (h1.symm.trans hd.1)
      have h1 : upsertSummary emp y m tss ms me u (d :: rest) =
          updateSummaryDoc d emp tss ms me u :: rest := by
        simp only [upsertSummary]
        rw [if_pos hd]
      have h2 := h1.symm.trans hstable
      injection h2 with h2a h2b
      have e1 : upsertSummary emp' y m tss ms me u (d :: rest) =
          d :: upsertSummary emp' y m tss ms me u rest := by
        simp only [upsertSummary]
        rw [if_neg hd']
      rw [e1]
      simp only [upsertSummary]
      rw [if_pos hd, h2a]
    · have h1 : upsertSummary emp y m tss ms me u (d :: rest) =
          d :: upsertSummary emp y m tss ms me u rest := by
        simp only [upsertSummary]
        rw [if_neg hd]
      have h2 := h1.symm.trans hstable
      injection h2 with h2a h2b
      by_cases hd' : d.employeeId = emp'.id ∧ d.year = y ∧ d.month = m
      · have e1 : upsertSummary emp' y m tss ms me u (d :: rest) =
            updateSummaryDoc d emp' tss ms me u :: rest := by
          simp only [upsertSummary]
          rw [if_pos hd']
        rw [e1]
        simp only [upsertSummary]
        have hnd : ¬ ((updateSummaryDoc d emp' tss ms me u).employeeId = emp.id ∧
            (updateSummaryDoc d emp' tss ms me u).year = y ∧
            (updateSummaryDoc d emp' tss ms me u).month = m) := by
          rintro ⟨h3, -, -⟩
          rw [updateSummaryDoc_employeeId] at h3
          exact hd ⟨h3, hd'.2.1, hd'.2.2⟩
        rw [if_neg hnd, h2b]
      · have e1 : upsertSummary emp' y m tss ms me u (d :: rest) =
            d :: upsertSummary emp' y m tss ms me u rest := by
          simp only [upsertSummary]
          rw [if_neg hd']
        rw [e1]
        simp only [upsertSummary]
        rw [if_neg hd, ih h2b]

/-- A fold of upsert steps whose employee ids all differ from a stable
key preserves that key's stability. -/
theorem upsertSummary_stable_foldl (emp : Employee) (y m ms me : Int)
    (tss : List TimesheetDoc) (u : Nat) :
    ∀ (l : List Employee) (s : List SummaryDoc),
    (∀ e' ∈ l, e'.id ≠ emp.id) →
    upsertSummary emp y m tss ms me u s = s →
    upsertSummary emp y m tss ms me u
        (l.foldl (fun st e' => upsertSummary e' y m tss ms me u st) s) =
      l.foldl (fun st e' => upsertSummary e' y m tss ms me u st) s := by
  intro l
  induction l with
  | nil => intro s _ h; simpa using h
  | cons a l' ih =>
    intro s hne h
    rw [List.foldl_cons]
    exact ih _ (fun e' he' => hne e' (List.mem_cons_of_mem a he'))
      (upsertSummary_stable_preserved emp a y m ms me tss u
        (hne a (List.mem_cons_self a l')) s h)

/-- After the whole generate fold over employees with pairwise distinct
ids, every processed employee's step has become the identity. -/
theorem upsertSummary_foldl_stable (y m ms me : Int) (tss : List TimesheetDoc) (u : Nat) :
    ∀ (l : List Employee) (st : List SummaryDoc) (emp : Employee),
    (l.map Employee.id).Nodup → emp ∈ l →
    upsertSummary emp y m tss ms me u
        (l.foldl (fun s e' => upsertSummary e' y m tss ms me u s) st) =
      l.foldl (fun s e' => upsertSummary e' y m tss ms me u s) st := by
  intro l
  induction l with
  | nil => intro st emp _ hmem; exact absurd hmem (List.not_mem_nil emp)
  | cons a l' ih =>
    intro st emp hnd hmem
    have hnd' : (∀ x ∈ l', ¬ x.id = a.id) ∧ (l'.map Employee.id).Nodup := by
      simpa using hnd
    rw [List.foldl_cons]
    rcases List.mem_cons.1 hmem with rfl | hmem'
    · exact upsertSummary_stable_foldl emp y m ms me tss u l' _
        (fun e' he' => hnd'.1 e' he')
        (upsertSummary_idem emp y m tss ms me u st)
    · exact ih _ emp hnd'.2 hmem'

/-- Folding steps that are each the identity on a state is the
identity. -/
theorem foldl_upsert_fixed (y m ms me : Int) (tss : List TimesheetDoc) (u : Nat) :
    ∀ (l : List Employee) (s : List SummaryDoc),
    (∀ e' ∈ l, upsertSummary e' y m tss ms me u s = s) →
    l.foldl (fun st e' => upsertSummary e' y m tss ms me u st) s = s := by
  intro l
  induction l with
  | nil => intro s _; rfl
  | cons a l' ih =>
    intro s h
    rw [List.foldl_cons, h a (List.mem_cons_self a l')]
    exact ih s (fun e' he' => h e' (List.mem_cons_of_mem a he'))

/-- When some document in the store carries the key, the upsert updates
in place and the store length is unchanged. -/
theorem upsertSummary_length (emp : Employee) (y m : Int) (tss : List TimesheetDoc)
    (ms me : Int) (u : Nat) :
    ∀ st : List SummaryDoc,
    (∃ d ∈ st, d.employeeId = emp.id ∧ d.year = y ∧ d.month = m) →
    (upsertSummary emp y m tss ms me u st).length = st.length := by
  intro st
  induction st with
  | nil => rintro ⟨d, hd, -⟩; exact absurd hd (List.not_mem_nil d)
  | cons d rest ih =>
    intro hex
    by_cases hd : d.employeeId = emp.id ∧ d.year = y ∧ d.month = m
    · simp only [upsertSummary]
      rw [if_pos hd]
      rfl
    · have h1 : ∃ d0 ∈ rest, d0.employeeId = emp.id ∧ d0.year = y ∧ d0.month = m := by
        obtain ⟨d0, hd0, hk⟩ := hex
        rcases List.mem_cons.1 hd0 with rfl | h
        · exact absurd hk hd
        · exact ⟨d0, h, hk⟩
      simp only [upsertSummary]
      rw [if_neg hd]
      simp [ih h1]

/-- When no document carries the key, the upsert appends a fresh
summary at the end of the store. -/
theorem upsertSummary_append (emp : Employee) (y m : Int) (tss : List TimesheetDoc)
    (ms me : Int) (u : Nat) :
    ∀ st : List SummaryDoc,
    (∀ d ∈ st, ¬ (d.employeeId = emp.id ∧ d.year = y ∧ d.month = m)) →
    upsertSummary emp y m tss ms me u st = st ++ [newSummaryDoc emp y m tss ms me u] := by
  intro st
  induction st with
  | nil => intro _; rfl
  | cons d rest ih =>
    intro hall
    simp only [upsertSummary]
    rw [if_neg (hall d (List.mem_cons_self d rest)), ih
      (fun d0 h => hall d0 (List.mem_cons_of_mem d h))]
    rfl

/-- C4: batch generation is idempotent: when the employee ids are
pairwise distinct (as document ids in the store are), a second run of
generate over the unchanged employees and timesheets returns exactly the
state the first run produced, so totals are identical and no second
summary document appears for any key; and one upsert step overwrites an
existing keyed document in place (same store length) or, when the key is
absent, appends one new summary whose status is draft. -/
theorem generate_idempotent_upsert :
    (∀ (employees : List Employee) (tss : List TimesheetDoc) (y m ms me : Int)
        (user : Principal) (st st1 : List SummaryDoc),
      (employees.map Employee.id).Nodup →
      generateSummaries employees tss y m ms me user st = .ok st1 →
      generateSummaries employees tss y m ms me user st1 = .ok st1) ∧
    (∀ (emp : Employee) (y m : Int) (tss : List TimesheetDoc) (ms me : Int) (u : Nat)
        (st : List SummaryDoc),
      ((∃ d ∈ st, d.employeeId = emp.id ∧ d.year = y ∧ d.month = m) →
        (upsertSummary emp y m tss ms me u st).length = st.length) ∧
      ((∀ d ∈ st, ¬ (d.employeeId = emp.id ∧ d.year = y ∧ d.month = m)) →
        upsertSummary emp y m tss ms me u st =
          st ++ [newSummaryDoc emp y m tss ms me u]) ∧
      (newSummaryDoc emp y m tss ms me u).status = SumStatus.draft) := by
  constructor
  · intro employees tss y m ms me user st st1 hnd hgen
    rw [generateSummaries] at hgen ⊢
    by_cases h1 : ¬ (user.role = .admin ∨ user.role = .manager)
    · rw [if_pos h1] at hgen
      exact absurd hgen (by simp)
    · rw [if_neg h1] at hgen ⊢
      by_cases h2 : m < 1 ∨ m > 12
      · rw [if_pos h2] at hgen
        exact absurd hgen (by simp)
      · rw [if_neg h2] at hgen ⊢
        by_cases h3 : y < 2020 ∨ y > 2030
        · rw [if_pos h3] at hgen
          exact absurd hgen (by simp)
        · rw [if_neg h3] at hgen ⊢
          rw [Except.ok.injEq] at hgen ⊢
          have hnd' : (((employees.filter fun emp => emp.status = EmpStatus.active).map
              Employee.id)).Nodup :=
            hnd.sublist (List.Sublist.map Employee.id (List.filter_sublist employees))
          rw [← hgen]
          exact foldl_upsert_fixed y m ms me tss user.id _ _
            (fun e' he' => upsertSummary_foldl_stable y m ms me tss user.id _ st e' hnd' he')
  · intro emp y m tss ms me u st
    exact ⟨upsertSummary_length emp y m tss ms me u st,
      upsertSummary_append emp y m tss ms me u st, rfl⟩

/-- Witness for C4: a single active employee over an empty store; the
first run creates one draft summary and the second run returns the same
one-element state; the upsert on an empty store appends the draft
summary. -/
theorem generate_idempotent_upsert_witness :
    generateSummaries [wEmployee5] [] 2024 5 0 30 wAdmin
        [newSummaryDoc wEmployee5 2024 5 [] 0 30 wAdmin.id] =
      .ok [newSummaryDoc wEmployee5 2024 5 [] 0 30 wAdmin.id] ∧
    upsertSummary wEmployee5 2024 5 [] 0 30 7 [] =
      [] ++ [newSummaryDoc wEmployee5 2024 5 [] 0 30 7] :=
  ⟨generate_idempotent_upsert.1 [wEmployee5] [] 2024 5 0 30 wAdmin []
      [newSummaryDoc wEmployee5 2024 5 [] 0 30 wAdmin.id] (by decide) rfl,
   (generate_idempotent_upsert.2 wEmployee5 2024 5 [] 0 30 7 []).2.1
      (by simp)⟩

end EmpRole
